import Mathlib

/-!
Shallow embedding of the storage layer of the Todo PWA repository
(class `TodoStorage`, file `js/storage.js`): entity validation, CRUD
operations, version migration, quota recovery and the in-memory fallback.

Modelling conventions:
* JavaScript values are modelled by the inductive type `JsVal`; objects are
  association lists with unique keys (as produced by object literals).
* `localStorage` is modelled as holding the parsed structured value
  (JSON serialization is the identity on the stored value).
* The wall clock, `Date.now()`, the id generator and `new Date(s).getTime()`
  are environment inputs and appear as explicit parameters
  (`now`, `nowMs`, `genId`, `dateMs`).
* Durable writes that may throw `QuotaExceededError` are driven by an
  environment `Env : Nat → Bool` giving the outcome of the n-th durable
  todos write (`true` = the write throws quota-exceeded).
* The mutual recursion `saveTodos` ↔ `handleQuotaExceeded` is bounded by an
  explicit fuel parameter; exhausted fuel returns failure without touching
  the state.
* All functions are total: the source wraps every operation in try/catch and
  never lets an exception escape; the one internal throw site that matters
  (`todoData.title.trim()` on a non-string title in `addTodo`) is modelled by
  the corresponding catch result.
-/

namespace TodoPWA

/-- A JavaScript value, as far as the storage layer inspects values. -/
inductive JsVal where
  | null
  | undef
  | bool (b : Bool)
  | num (n : Int)
  | str (s : String)
  | arr (elems : List JsVal)
  | obj (fields : List (String × JsVal))

/-- A JavaScript object: an association list of fields. -/
abbrev Obj := List (String × JsVal)

/-- JavaScript truthiness (`Boolean(v)`); `NaN` is not modelled. -/
def truthy : JsVal → Bool
  | .null => false
  | .undef => false
  | .bool b => b
  | .num n => n != 0
  | .str s => s != ""
  | .arr _ => true
  | .obj _ => true

/-- `typeof v === 'string'`. -/
def isStr : JsVal → Bool
  | .str _ => true
  | _ => false

/-- `typeof v === 'boolean'`. -/
def isBool : JsVal → Bool
  | .bool _ => true
  | _ => false

/-- `Array.isArray(v)`. -/
def isArr : JsVal → Bool
  | .arr _ => true
  | _ => false

/-- Property read `o.k`: the value of the first binding of `k`, or
`undefined` when the key is absent. -/
def getF : Obj → String → JsVal
  | [], _ => .undef
  | (k1, v1) :: rest, k => if k1 == k then v1 else getF rest k

/-- JavaScript `v || d`. -/
def jsOr (v d : JsVal) : JsVal :=
  if truthy v then v else d

/-- Whitespace characters stripped by `String.prototype.trim` (the common
ASCII subset; exotic Unicode space characters are not modelled). -/
def wsChar (c : Char) : Bool :=
  c == ' ' || c == '\t' || c == '\n' || c == '\r' || c == '\x0b' || c == '\x0c'

/-- `s.trim()`: strip leading and trailing whitespace. -/
def jsTrim (s : String) : String :=
  ⟨((s.data.dropWhile wsChar).reverse.dropWhile wsChar).reverse⟩

/-- Property write `o[k] = v`: replace the value at an existing key in
place, otherwise append the binding (JavaScript object assignment /
object-literal field order). -/
def setKey : Obj → String → JsVal → Obj
  | [], k, v => [(k, v)]
  | (k1, v1) :: rest, k, v =>
      if k1 == k then (k, v) :: rest else (k1, v1) :: setKey rest k v

/-- Object spread `{...base, ...ext}`. -/
def mergeObj (base ext : Obj) : Obj :=
  ext.foldl (fun acc p => setKey acc p.1 p.2) base

/-- The required-field check of `validateTodos`:
`todo.id` a non-empty string, `todo.title` a non-empty string,
`todo.completed` a boolean. -/
def idOkB (f : Obj) : Bool :=
  match getF f "id" with
  | .str s => s != ""
  | _ => false

def titleOkB (f : Obj) : Bool :=
  match getF f "title" with
  | .str s => s != ""
  | _ => false

def isValidTodoF (f : Obj) : Bool :=
  idOkB f && titleOkB f && isBool (getF f "completed")

/-- The normalization pass of `validateTodos` applied to a surviving
record: the nine-field object literal built at
`js/storage.js`, `validateTodos`. -/
def normalizeTodo (now : String) (f : Obj) : Obj :=
  [("id", getF f "id"),
   ("title", match getF f "title" with
             | .str s => .str (jsTrim s)
             | v => v),
   ("completed", getF f "completed"),
   ("dueDate", jsOr (getF f "dueDate") .null),
   ("createdAt", jsOr (getF f "createdAt") (.str now)),
   ("completedAt", jsOr (getF f "completedAt") .null),
   ("priority", jsOr (getF f "priority") (.str "normal")),
   ("tags", if isArr (getF f "tags") then getF f "tags" else .arr []),
   ("description", jsOr (getF f "description") (.str ""))]

/-- Filter-and-normalize a list of raw entries (the `filter`/`map` body of
`validateTodos`); a non-object entry (including `null` and arrays, whose
`id` is `undefined`) is dropped. -/
def validateOne (now : String) : JsVal → Option Obj
  | .obj f => if isValidTodoF f then some (normalizeTodo now f) else none
  | _ => none

def validateList (now : String) (l : List JsVal) : List Obj :=
  l.filterMap (validateOne now)

/-- `TodoStorage.validateTodos`: a non-array input resets to the empty
list; otherwise filter out invalid entries and normalize the survivors. -/
def validateTodos (now : String) : JsVal → List Obj
  | .arr l => validateList now l
  | _ => []

/-- The persistent state of a `TodoStorage` instance: the two records in
`localStorage` (as parsed values; `none` = key absent), the memory-fallback
copies, the fallback flag, plus two instrumentation counters: `writeCount`
indexes durable todos writes into the quota environment, `saveCalls` counts
invocations of `saveTodos`. -/
structure St where
  stored : Option JsVal := none
  settingsStored : Option JsVal := none
  mem : List Obj := []
  memSettings : Obj := []
  usingMem : Bool := false
  writeCount : Nat := 0
  saveCalls : Nat := 0

/-- Outcome schedule of durable todos writes: `env n = true` means the
n-th `localStorage.setItem` on the todos key throws `QuotaExceededError`. -/
abbrev Env := Nat → Bool

/-- The raw value `validateTodos` is applied to inside `getTodos`. -/
def rawList (s : St) : List JsVal :=
  if s.usingMem then s.mem.map .obj
  else
    match s.stored with
    | some (.arr l) => l
    | some _ => []
    | none => []

/-- `TodoStorage.getTodos()` (no filter/sort options): read the raw todos,
validate. A stored non-array value validates to `[]`. -/
def getTodos (now : String) (s : St) : List Obj :=
  validateList now (rawList s)

/-- The filter body of `handleQuotaExceeded`: keep a todo unless it is
completed and `new Date(completedAt || createdAt).getTime()` is not after
the 30-day cutoff `Date.now() - 30 * 24 * 60 * 60 * 1000`. -/
def keepB (nowMs : Int) (dateMs : JsVal → Int) (f : Obj) : Bool :=
  !truthy (getF f "completed")
    || decide (nowMs - 30 * 24 * 60 * 60 * 1000
        < dateMs (jsOr (getF f "completedAt") (getF f "createdAt")))

/-- `TodoStorage.saveTodos`: validate, then write either to the memory
fallback or durably. A quota-exceeded durable write is caught and runs
`handleQuotaExceeded` (inlined here, see `handleQuotaF` below for the
stand-alone definition) before returning `false`. Fuel bounds the
`saveTodos` ↔ `handleQuotaExceeded` recursion; exhausted fuel returns
`false` leaving the state unchanged. -/
def saveTodosF (env : Env) (now : String) (nowMs : Int) (dateMs : JsVal → Int) :
    Nat → List Obj → St → Bool × St
  | 0, _, s => (false, s)
  | fuel + 1, todos, s =>
    let s0 : St := { s with saveCalls := s.saveCalls + 1 }
    let validated := validateList now (todos.map .obj)
    if s0.usingMem then
      (true, { s0 with mem := validated })
    else if env s0.writeCount then
      -- localStorage.setItem throws QuotaExceededError;
      -- the catch runs handleQuotaExceeded and returns false.
      let s1 : St := { s0 with writeCount := s0.writeCount + 1 }
      let cur := getTodos now s1
      let filtered := cur.filter (keepB nowMs dateMs)
      let s2 := if filtered.length < cur.length
        then (saveTodosF env now nowMs dateMs fuel filtered s1).2
        else s1
      (false, s2)
    else
      (true, { s0 with writeCount := s0.writeCount + 1,
                       stored := some (.arr (validated.map .obj)) })

/-- `TodoStorage.handleQuotaExceeded`: reload the todos, drop completed
todos whose `completedAt || createdAt` parses to an instant not after the
30-day cutoff, and re-save only if that removed something. Its body is the
one inlined in the quota branch of `saveTodosF`. -/
def handleQuotaF (env : Env) (now : String) (nowMs : Int) (dateMs : JsVal → Int)
    (fuel : Nat) (s : St) : St :=
  let todos := getTodos now s
  let filtered := todos.filter (keepB nowMs dateMs)
  if filtered.length < todos.length
    then (saveTodosF env now nowMs dateMs fuel filtered s).2
    else s

/-- `todo.id === id` for a string `id`. -/
def idEq (f : Obj) (id : String) : Bool :=
  match getF f "id" with
  | .str s => s == id
  | _ => false

/-- The object literal `addTodo` builds (its `title` field is
`todoData.title.trim()`, here the matched string `t`). -/
def mkNewTodo (now genId : String) (data : Obj) (t : String) : Obj :=
  [("id", .str genId),
   ("title", .str (jsTrim t)),
   ("completed", .bool false),
   ("dueDate", jsOr (getF data "dueDate") .null),
   ("createdAt", .str now),
   ("completedAt", .null),
   ("priority", jsOr (getF data "priority") (.str "normal")),
   ("tags", jsOr (getF data "tags") (.arr [])),
   ("description", jsOr (getF data "description") (.str ""))]

/-- `TodoStorage.addTodo`: build the new record, prepend, save; a
non-string `title` raises in `todoData.title.trim()` and the surrounding
catch returns `null` with the state untouched. -/
def addTodo (env : Env) (now : String) (nowMs : Int) (dateMs : JsVal → Int)
    (genId : String) (fuel : Nat) (data : Obj) (s : St) : Option Obj × St :=
  let todos := getTodos now s
  match getF data "title" with
  | .str t =>
    let newTodo := mkNewTodo now genId data t
    let r := saveTodosF env now nowMs dateMs fuel (newTodo :: todos) s
    if r.1 then (some newTodo, r.2) else (none, r.2)
  | _ => (none, s)

/-- The completion-status branch of `updateTodo`: when
`updates.completed !== undefined`, overwrite `completedAt` with now (if the
flag is truthy) or null. -/
def applyCompleted (now : String) (updates : Obj) (m : Obj) : Obj :=
  match getF updates "completed" with
  | .undef => m
  | c => setKey m "completedAt" (if truthy c then .str now else .null)

/-- The record `updateTodo` builds for the found index:
`{...todos[index], ...updates, id, updatedAt: now}` followed by the
completion-status branch. -/
def mergeUpdate (now id : String) (oldT updates : Obj) : Obj :=
  applyCompleted now updates
    (setKey (setKey (mergeObj oldT updates) "id" (.str id)) "updatedAt" (.str now))

/-- `TodoStorage.updateTodo`: find the record, merge
`{...todos[index], ...updates, id, updatedAt: now}`, then force
`completedAt` from `updates.completed` when that key is present
(`!== undefined`), save. -/
def updateTodo (env : Env) (now : String) (nowMs : Int) (dateMs : JsVal → Int)
    (fuel : Nat) (id : String) (updates : Obj) (s : St) : Option Obj × St :=
  let todos := getTodos now s
  match todos.findIdx? (fun f => idEq f id) with
  | none => (none, s)
  | some i =>
    let merged := mergeUpdate now id (todos.getD i []) updates
    let r := saveTodosF env now nowMs dateMs fuel (todos.set i merged) s
    if r.1 then (some merged, r.2) else (none, r.2)

/-- `TodoStorage.getTodo`: first record with the given id, or `null`. -/
def getTodo (now : String) (id : String) (s : St) : Option Obj :=
  (getTodos now s).find? (fun f => idEq f id)

/-- `TodoStorage.getDefaultSettings()` with `this.version = '1.0.0'`. -/
def defaultSettings : Obj :=
  [("version", .str "1.0.0"),
   ("theme", .str "auto"),
   ("notifications", .bool false),
   ("autoCleanup", .bool true),
   ("sortBy", .str "createdAt"),
   ("sortOrder", .str "desc"),
   ("showCompleted", .bool true),
   ("compactMode", .bool false)]

/-- `TodoStorage.getSettings`: parse the stored settings (defaults when
absent) and merge them over the defaults. A stored non-object value
spreads no own properties of interest and yields the defaults. -/
def getSettings (s : St) : Obj :=
  if s.usingMem then s.memSettings
  else
    match s.settingsStored with
    | some (.obj f) => mergeObj defaultSettings f
    | some _ => defaultSettings
    | none => defaultSettings

/-- `TodoStorage.saveSettings`: merge over defaults and write. The settings
write is modelled as always succeeding (no quota handler exists for it in
the source; a settings write error is caught and irrelevant here). -/
def saveSettings (settings : Obj) (s : St) : St :=
  let merged := mergeObj defaultSettings settings
  if s.usingMem then { s with memSettings := merged }
  else { s with settingsStored := some (.obj merged) }

/-- Lexicographic string comparison by code unit (JavaScript `<` on
strings; the version strings involved are ASCII). -/
def strLtB : List Char → List Char → Bool
  | [], [] => false
  | [], _ :: _ => true
  | _ :: _, [] => false
  | a :: as, b :: bs =>
      if a.toNat < b.toNat then true
      else if b.toNat < a.toNat then false
      else strLtB as bs

/-- `fromVersion < '1.0.0'` for a string version (the comparison the
migration gate performs; non-string versions are not produced by this
code's own settings records). -/
def versionLt (v : JsVal) (w : String) : Bool :=
  match v with
  | .str a => strLtB a.data w.data
  | _ => false

/-- The per-record backfill body of `performMigrations`: returns the
(possibly) updated record and whether anything changed. -/
def migrateTodo (now genId : String) (f : Obj) : Obj × Bool :=
  let p1 := if !truthy (getF f "id") then (setKey f "id" (.str genId), true)
            else (f, false)
  let p2 := if !truthy (getF p1.1 "createdAt")
            then (setKey p1.1 "createdAt" (.str now), true)
            else (p1.1, false)
  let p3 := if !isBool (getF p2.1 "completed")
            then (setKey p2.1 "completed" (.bool false), true)
            else (p2.1, false)
  (p3.1, p1.2 || p2.2 || p3.2)

/-- `TodoStorage.performMigrations`: reload (and thereby validate) the
todos, run the pre-1.0.0 backfill over them, and save only when at least
one record was changed. -/
def performMigrations (env : Env) (now : String) (nowMs : Int)
    (dateMs : JsVal → Int) (genId : String) (fuel : Nat)
    (fromVer : JsVal) (s : St) : St :=
  let todos := getTodos now s
  let pre := versionLt fromVer "1.0.0"
  let todos2 := if pre then todos.map (fun f => (migrateTodo now genId f).1) else todos
  let migrated := if pre then todos.any (fun f => (migrateTodo now genId f).2) else false
  if migrated then (saveTodosF env now nowMs dateMs fuel todos2 s).2 else s

/-- `TodoStorage.handleVersionMigration`: when the recorded settings
version differs from `'1.0.0'`, run the migrations and re-save the
settings with the version bumped. -/
def handleVersionMigration (env : Env) (now : String) (nowMs : Int)
    (dateMs : JsVal → Int) (genId : String) (fuel : Nat) (s : St) : St :=
  let settings := getSettings s
  let curVer := jsOr (getF settings "version") (.str "0.0.0")
  let differs :=
    match curVer with
    | .str v => v != "1.0.0"
    | _ => true
  if differs then
    let s1 := performMigrations env now nowMs dateMs genId fuel curVer s
    saveSettings (setKey settings "version" (.str "1.0.0")) s1
  else s

/-- `TodoStorage.useMemoryFallback`. -/
def useMemoryFallback (s : St) : St :=
  { s with usingMem := true, mem := [], memSettings := defaultSettings }

/-- `TodoStorage.initializeStorage` (constructor body): probe storage
availability, create the two records when absent, then run the version
migration. -/
def initStorage (avail : Bool) (env : Env) (now : String) (nowMs : Int)
    (dateMs : JsVal → Int) (genId : String) (fuel : Nat) (s : St) : St :=
  if !avail then useMemoryFallback s
  else
    let s1 := match s.stored with
      | none => (saveTodosF env now nowMs dateMs fuel [] s).2
      | some _ => s
    let s2 := match s1.settingsStored with
      | none => saveSettings defaultSettings s1
      | some _ => s1
    handleVersionMigration env now nowMs dateMs genId fuel s2

/-- The nine field names `validateTodos` writes, in literal order. -/
def nineKeys : List String :=
  ["id", "title", "completed", "dueDate", "createdAt",
   "completedAt", "priority", "tags", "description"]

/-- The Todo shape every persisted record has: exactly the nine keys, a
non-empty string id, a string title, a boolean completed, array tags. -/
def todoInvB (f : Obj) : Bool :=
  (f.map Prod.fst == nineKeys) && idOkB f && isStr (getF f "title")
    && isBool (getF f "completed") && isArr (getF f "tags")

/-- The list of records a state holds as the persisted todos record
(observation function used to state write-time properties). -/
def objsOf : List JsVal → List Obj
  | [] => []
  | .obj f :: rest => f :: objsOf rest
  | _ :: rest => objsOf rest

def writtenTodos (s : St) : List Obj :=
  if s.usingMem then s.mem
  else
    match s.stored with
    | some (.arr l) => objsOf l
    | _ => []

/-! ### Basic lemmas about the object model -/

@[simp]
lemma getF_norm_id (now : String) (f : Obj) :
    getF (normalizeTodo now f) "id" = getF f "id" := rfl

@[simp]
lemma getF_norm_title (now : String) (f : Obj) :
    getF (normalizeTodo now f) "title"
      = (match getF f "title" with
         | .str s => .str (jsTrim s)
         | v => v) := rfl

@[simp]
lemma getF_norm_completed (now : String) (f : Obj) :
    getF (normalizeTodo now f) "completed" = getF f "completed" := rfl

@[simp]
lemma getF_norm_dueDate (now : String) (f : Obj) :
    getF (normalizeTodo now f) "dueDate" = jsOr (getF f "dueDate") .null := rfl

@[simp]
lemma getF_norm_createdAt (now : String) (f : Obj) :
    getF (normalizeTodo now f) "createdAt"
      = jsOr (getF f "createdAt") (.str now) := rfl

@[simp]
lemma getF_norm_completedAt (now : String) (f : Obj) :
    getF (normalizeTodo now f) "completedAt"
      = jsOr (getF f "completedAt") .null := rfl

@[simp]
lemma getF_norm_priority (now : String) (f : Obj) :
    getF (normalizeTodo now f) "priority"
      = jsOr (getF f "priority") (.str "normal") := rfl

@[simp]
lemma getF_norm_tags (now : String) (f : Obj) :
    getF (normalizeTodo now f) "tags"
      = (if isArr (getF f "tags") then getF f "tags" else .arr []) := rfl

@[simp]
lemma getF_norm_description (now : String) (f : Obj) :
    getF (normalizeTodo now f) "description"
      = jsOr (getF f "description") (.str "") := rfl

lemma jsOr_jsOr (v d : JsVal) : jsOr (jsOr v d) d = jsOr v d := by
  unfold jsOr
  by_cases h : truthy v = true
  · simp [h]
  · simp [h]

lemma norm_keys (now : String) (f : Obj) :
    (normalizeTodo now f).map Prod.fst = nineKeys := rfl

/-- Every record produced by the validator has the Todo shape. -/
lemma todoInvB_normalize (now : String) (f : Obj) (h : isValidTodoF f = true) :
    todoInvB (normalizeTodo now f) = true := by
  unfold isValidTodoF at h
  simp only [Bool.and_eq_true] at h
  obtain ⟨⟨hid, htitle⟩, hcomp⟩ := h
  unfold todoInvB
  simp only [Bool.and_eq_true, norm_keys, beq_self_eq_true, true_and,
    getF_norm_id, getF_norm_title, getF_norm_completed, getF_norm_tags]
  refine ⟨⟨⟨hid, ?_⟩, hcomp⟩, ?_⟩
  · unfold titleOkB at htitle
    cases hx : getF f "title" with
    | str s => simp [isStr]
    | _ =>
      rw [hx] at htitle
      simp_all
  · cases hx : getF f "tags" <;> simp [isArr, hx]

lemma validateList_cons (now : String) (a : JsVal) (l : List JsVal) :
    validateList now (a :: l)
      = match validateOne now a with
        | some f => f :: validateList now l
        | none => validateList now l := by
  simp [validateList, List.filterMap_cons]
  cases validateOne now a <;> simp

lemma validateList_all_inv (now : String) (l : List JsVal) :
    (validateList now l).all todoInvB = true := by
  induction l with
  | nil => rfl
  | cons a t ih =>
    rw [validateList_cons]
    cases a with
    | obj f =>
      simp only [validateOne]
      by_cases h : isValidTodoF f = true
      · simp [h, List.all_cons, todoInvB_normalize now f h, ih]
      · simp only [Bool.not_eq_true] at h
        simp [h, ih]
    | _ => simpa [validateOne] using ih

lemma mem_validateList (now : String) (l : List JsVal) (f : Obj) :
    f ∈ validateList now l
      ↔ ∃ v ∈ l, validateOne now v = some f := by
  simp [validateList, List.mem_filterMap]

lemma validateList_map_obj (now : String) (xs : List Obj) :
    validateList now (xs.map .obj)
      = xs.filterMap
          (fun g => if isValidTodoF g then some (normalizeTodo now g) else none) := by
  simp only [validateList, List.filterMap_map]
  rfl

lemma objsOf_map (l : List Obj) : objsOf (l.map .obj) = l := by
  induction l with
  | nil => rfl
  | cons a t ih => simp [objsOf, ih]

lemma length_filterMap_lt_of_bad {α β : Type} (g : α → Option β) (xs : List α)
    (x : α) (hx : x ∈ xs) (hbad : g x = none) :
    (xs.filterMap g).length < xs.length := by
  induction xs with
  | nil => cases hx
  | cons a t ih =>
    rcases List.mem_cons.mp hx with h | h
    · subst h
      rw [List.filterMap_cons, hbad]
      exact Nat.lt_succ_of_le (List.length_filterMap_le g t)
    · rw [List.filterMap_cons]
      cases hga : g a with
      | none => exact Nat.lt_succ_of_lt (ih h)
      | some b => simpa using Nat.succ_lt_succ (ih h)

/-! ### Object assignment lemmas -/

lemma getF_setKey_self (o : Obj) (k : String) (v : JsVal) :
    getF (setKey o k v) k = v := by
  induction o with
  | nil => simp [setKey, getF]
  | cons p rest ih =>
    obtain ⟨k1, v1⟩ := p
    by_cases h : (k1 == k) = true
    · simp [setKey, h, getF]
    · simp only [setKey, h, if_false, Bool.false_eq_true]
      simp only [getF, ih]
      have : (k1 == k) = false := by simpa using h
      simp [this]

lemma getF_setKey_ne (o : Obj) (k k1 : String) (v : JsVal) (h : k1 ≠ k) :
    getF (setKey o k v) k1 = getF o k1 := by
  have hk : (k == k1) = false := by
    simpa using fun e => h (by simpa using e.symm)
  induction o with
  | nil => simp [setKey, getF, hk]
  | cons p rest ih =>
    obtain ⟨k2, v2⟩ := p
    by_cases h2 : (k2 == k) = true
    · have hk2 : k2 = k := by simpa using h2
      subst hk2
      simp [setKey, getF, hk]
    · have h2f : (k2 == k) = false := by simpa using h2
      simp only [setKey, h2f, Bool.false_eq_true, if_false, getF, ih]

lemma getF_mergeObj_nomem (ext : Obj) (base : Obj) (k : String)
    (h : ∀ p ∈ ext, p.1 ≠ k) :
    getF (mergeObj base ext) k = getF base k := by
  induction ext generalizing base with
  | nil => rfl
  | cons p rest ih =>
    have hstep : mergeObj base (p :: rest) = mergeObj (setKey base p.1 p.2) rest :=
      rfl
    rw [hstep, ih (setKey base p.1 p.2) (fun q hq => h q (List.mem_cons_of_mem p hq)),
      getF_setKey_ne base p.1 k p.2 (fun e => h p (List.mem_cons_self p rest) (e ▸ rfl))]

lemma getF_applyCompleted_ne (now : String) (updates m : Obj) (k : String)
    (h : k ≠ "completedAt") :
    getF (applyCompleted now updates m) k = getF m k := by
  unfold applyCompleted
  cases getF updates "completed" <;>
    simp [getF_setKey_ne _ _ _ _ h]

lemma applyCompleted_bool (now : String) (updates m : Obj) (b : Bool)
    (hc : getF updates "completed" = .bool b) :
    applyCompleted now updates m
      = setKey m "completedAt" (if b then .str now else .null) := by
  unfold applyCompleted
  rw [hc]
  rfl

lemma getF_mergeUpdate_id (now id : String) (oldT updates : Obj) :
    getF (mergeUpdate now id oldT updates) "id" = .str id := by
  unfold mergeUpdate
  rw [getF_applyCompleted_ne _ _ _ _ (by decide),
    getF_setKey_ne _ _ _ _ (by decide), getF_setKey_self]

lemma getF_mergeUpdate_createdAt (now id : String) (oldT updates : Obj)
    (h : ∀ p ∈ updates, p.1 ≠ "createdAt") :
    getF (mergeUpdate now id oldT updates) "createdAt"
      = getF oldT "createdAt" := by
  unfold mergeUpdate
  rw [getF_applyCompleted_ne _ _ _ _ (by decide),
    getF_setKey_ne _ _ _ _ (by decide), getF_setKey_ne _ _ _ _ (by decide),
    getF_mergeObj_nomem updates oldT "createdAt" h]

lemma find?_getD_of_findIdx? (p : Obj → Bool) (l : List Obj) (i : Nat)
    (h : l.findIdx? p = some i) :
    i < l.length ∧ l.find? p = some (l.getD i []) := by
  induction l generalizing i with
  | nil => simp [List.findIdx?_nil] at h
  | cons a t ih =>
    have hc : (a :: t).findIdx? p
        = if p a then some 0 else (t.findIdx? p).map (· + 1) := by
      simp [List.findIdx?_cons]
    rw [hc] at h
    by_cases hp : p a = true
    · rw [if_pos hp] at h
      injection h with h
      subst h
      simp [List.find?_cons_of_pos _ hp]
    · rw [if_neg (by simpa using hp)] at h
      cases hfi : t.findIdx? p with
      | none => rw [hfi] at h; simp at h
      | some j =>
        rw [hfi] at h
        simp at h
        subst h
        obtain ⟨hlt, hfind⟩ := ih j hfi
        refine ⟨by simpa using Nat.succ_lt_succ hlt, ?_⟩
        rw [List.find?_cons_of_neg _ (by simpa using hp), List.getD_cons_succ]
        exact hfind

/-- Every record the validator returns has a truthy `createdAt` (either
the raw truthy value or the backfilled current timestamp). -/
lemma createdAt_truthy (now : String) (hnow : now ≠ "") (l : List JsVal)
    (f : Obj) (hf : f ∈ validateList now l) :
    truthy (getF f "createdAt") = true := by
  rw [mem_validateList] at hf
  obtain ⟨v, hv, hone⟩ := hf
  cases v with
  | obj g =>
    simp only [validateOne] at hone
    split at hone
    · have hfe : f = normalizeTodo now g := by simpa using hone.symm
      subst hfe
      rw [getF_norm_createdAt]
      unfold jsOr
      split
      · assumption
      · simpa [truthy] using hnow
    · simp at hone
  | _ => simp [validateOne] at hone

/-- A successful `updateTodo` returns exactly the merged record for the
first index whose id matches. -/
lemma updateTodo_some (env : Env) (now : String) (nowMs : Int)
    (dateMs : JsVal → Int) (fuel : Nat) (id : String) (updates : Obj) (s : St)
    (r : Obj)
    (hr : (updateTodo env now nowMs dateMs fuel id updates s).1 = some r) :
    ∃ i, (getTodos now s).findIdx? (fun f => idEq f id) = some i
      ∧ r = mergeUpdate now id ((getTodos now s).getD i []) updates := by
  unfold updateTodo at hr
  dsimp only at hr
  cases hfi : (getTodos now s).findIdx? (fun f => idEq f id) with
  | none =>
    rw [hfi] at hr
    exact absurd hr (by simp)
  | some i =>
    rw [hfi] at hr
    simp only at hr
    refine ⟨i, rfl, ?_⟩
    split at hr
    · simpa using hr.symm
    · exact absurd hr (by simp)

/-! ### Characterization of `saveTodos` one step at a time -/

lemma saveTodosF_mem (env : Env) (now : String) (nowMs : Int)
    (dateMs : JsVal → Int) (fuel : Nat) (todos : List Obj) (s : St)
    (hm : s.usingMem = true) :
    saveTodosF env now nowMs dateMs (fuel + 1) todos s
      = (true, { s with saveCalls := s.saveCalls + 1,
                        mem := validateList now (todos.map .obj) }) := by
  simp [saveTodosF, hm]

lemma saveTodosF_durable (env : Env) (now : String) (nowMs : Int)
    (dateMs : JsVal → Int) (fuel : Nat) (todos : List Obj) (s : St)
    (hm : s.usingMem = false) (hw : env s.writeCount = false) :
    saveTodosF env now nowMs dateMs (fuel + 1) todos s
      = (true, { s with saveCalls := s.saveCalls + 1,
                        writeCount := s.writeCount + 1,
                        stored := some (.arr
                          ((validateList now (todos.map .obj)).map .obj)) }) := by
  simp [saveTodosF, hm, hw]

lemma saveTodosF_quota (env : Env) (now : String) (nowMs : Int)
    (dateMs : JsVal → Int) (fuel : Nat) (todos : List Obj) (s : St)
    (hm : s.usingMem = false) (hw : env s.writeCount = true) :
    saveTodosF env now nowMs dateMs (fuel + 1) todos s
      = (false, handleQuotaF env now nowMs dateMs fuel
          { s with saveCalls := s.saveCalls + 1,
                   writeCount := s.writeCount + 1 }) := by
  simp [saveTodosF, handleQuotaF, hm, hw]

/-- A successful save: it reports `true` and afterwards the observable
list is the re-validation of the validated input. -/
lemma saveTodosF_success (env : Env) (now : String) (nowMs : Int)
    (dateMs : JsVal → Int) (fuel : Nat) (todos : List Obj) (s : St)
    (hw : env s.writeCount = false) :
    (saveTodosF env now nowMs dateMs (fuel + 1) todos s).1 = true
    ∧ getTodos now (saveTodosF env now nowMs dateMs (fuel + 1) todos s).2
        = validateList now ((validateList now (todos.map .obj)).map .obj) := by
  by_cases hm : s.usingMem
  · rw [saveTodosF_mem env now nowMs dateMs fuel todos s hm]
    exact ⟨rfl, by simp [getTodos, rawList, hm]⟩
  · rw [saveTodosF_durable env now nowMs dateMs fuel todos s
      (by simpa using hm) hw]
    exact ⟨rfl, by simp [getTodos, rawList, hm]⟩

/-! ### Trim idempotence and add/get round trip lemmas -/

lemma dropWhile_dropWhile {α : Type} (p : α → Bool) (l : List α) :
    (l.dropWhile p).dropWhile p = l.dropWhile p := by
  induction l with
  | nil => rfl
  | cons a t ih =>
    by_cases h : p a = true
    · rw [List.dropWhile_cons, if_pos h]
      exact ih
    · rw [List.dropWhile_cons, if_neg h, List.dropWhile_cons, if_neg h]

lemma dropWhile_eq_self_of_prefix {α : Type} (p : α → Bool) (A B : List α)
    (hA : A.dropWhile p = A) (hpre : B <+: A) : B.dropWhile p = B := by
  cases B with
  | nil => rfl
  | cons b B2 =>
    obtain ⟨rest, hrest⟩ := hpre
    have hb : p b = false := by
      by_contra hb'
      have hb2 : p b = true := by simpa using hb'
      rw [← hrest, List.cons_append, List.dropWhile_cons, if_pos hb2] at hA
      have hlen := congrArg List.length hA
      have hle : ((B2 ++ rest).dropWhile p).length ≤ (B2 ++ rest).length :=
        (List.dropWhile_suffix p).length_le
      simp only [List.length_cons] at hlen
      omega
    rw [List.dropWhile_cons, if_neg (by simp [hb])]

/-- `s.trim().trim() = s.trim()`. -/
lemma jsTrim_idem (s : String) : jsTrim (jsTrim s) = jsTrim s := by
  unfold jsTrim
  apply congrArg String.mk
  have hA : (s.data.dropWhile wsChar).dropWhile wsChar
      = s.data.dropWhile wsChar := dropWhile_dropWhile wsChar s.data
  have hpre :
      (((s.data.dropWhile wsChar).reverse.dropWhile wsChar).reverse)
        <+: s.data.dropWhile wsChar := by
    apply List.reverse_suffix.mp
    rw [List.reverse_reverse]
    exact List.dropWhile_suffix wsChar
  have hfront :
      ((((s.data.dropWhile wsChar).reverse.dropWhile wsChar).reverse).dropWhile
        wsChar)
      = (((s.data.dropWhile wsChar).reverse.dropWhile wsChar).reverse) :=
    dropWhile_eq_self_of_prefix wsChar _ _ hA hpre
  rw [show (String.mk ((((s.data.dropWhile wsChar).reverse.dropWhile
      wsChar).reverse))).data
    = (((s.data.dropWhile wsChar).reverse.dropWhile wsChar).reverse) from rfl]
  rw [hfront, List.reverse_reverse, dropWhile_dropWhile]

lemma jsOr_self (v : JsVal) : jsOr v v = v := by
  unfold jsOr
  split <;> rfl

lemma validateList_cons_valid (now : String) (g : Obj) (xs : List Obj)
    (hv : isValidTodoF g = true) (hn : normalizeTodo now g = g) :
    validateList now ((g :: xs).map .obj)
      = g :: validateList now (xs.map .obj) := by
  rw [List.map_cons, validateList_cons]
  simp [validateOne, hv, hn]

/-- The record `addTodo` constructs is a fixed point of the validator's
normalization, provided the raw `tags` was an array or falsy. -/
lemma normalizeTodo_mkNewTodo (now genId : String) (data : Obj) (t : String)
    (htags : truthy (getF data "tags") = false
      ∨ isArr (getF data "tags") = true) :
    normalizeTodo now (mkNewTodo now genId data t)
      = mkNewTodo now genId data t := by
  have hstep : normalizeTodo now (mkNewTodo now genId data t)
      = [("id", .str genId),
         ("title", .str (jsTrim (jsTrim t))),
         ("completed", .bool false),
         ("dueDate", jsOr (jsOr (getF data "dueDate") .null) .null),
         ("createdAt", jsOr (.str now) (.str now)),
         ("completedAt", jsOr .null .null),
         ("priority", jsOr (jsOr (getF data "priority") (.str "normal"))
            (.str "normal")),
         ("tags", if isArr (jsOr (getF data "tags") (.arr []))
            then jsOr (getF data "tags") (.arr []) else .arr []),
         ("description", jsOr (jsOr (getF data "description") (.str ""))
            (.str ""))] := rfl
  have htg : (if isArr (jsOr (getF data "tags") (.arr []))
      then jsOr (getF data "tags") (.arr []) else .arr [])
      = jsOr (getF data "tags") (.arr []) := by
    rcases htags with h | h
    · rw [show jsOr (getF data "tags") (.arr []) = .arr [] from by
        simp [jsOr, h]]
      rfl
    · cases hx : getF data "tags" with
      | arr l =>
        rw [show jsOr (JsVal.arr l) (.arr []) = .arr l from by
          simp [jsOr, truthy]]
        rfl
      | _ => rw [hx] at h; simp [isArr] at h
  rw [hstep, htg, jsTrim_idem, jsOr_jsOr, jsOr_jsOr, jsOr_jsOr, jsOr_self,
    jsOr_self]
  rfl

/-! ### Quota recovery lemmas -/

lemma mem_validateList_map (now : String) (xs : List Obj) (f : Obj) :
    f ∈ validateList now (xs.map .obj)
      ↔ ∃ g ∈ xs, isValidTodoF g = true ∧ f = normalizeTodo now g := by
  rw [validateList_map_obj]
  simp only [List.mem_filterMap]
  constructor
  · rintro ⟨g, hg, he⟩
    by_cases hv : isValidTodoF g = true
    · rw [if_pos hv] at he
      exact ⟨g, hg, hv, (Option.some_inj.mp he).symm⟩
    · rw [if_neg hv] at he
      cases he
  · rintro ⟨g, hg, hv, rfl⟩
    exact ⟨g, hg, by rw [if_pos hv]⟩

lemma keepB_spec (nowMs : Int) (dateMs : JsVal → Int) (f : Obj)
    (h : keepB nowMs dateMs f = true)
    (hc : truthy (getF f "completed") = true) :
    nowMs - 30 * 24 * 60 * 60 * 1000
      < dateMs (jsOr (getF f "completedAt") (getF f "createdAt")) := by
  unfold keepB at h
  rw [hc] at h
  simpa using h

/-- The argument `handleQuotaExceeded` passes to the date parser is
unchanged when a validated record is re-normalized twice by subsequent
saves and loads. -/
lemma dateArg_norm_norm (now : String) (hnow : now ≠ "") (l : List JsVal)
    (g : Obj) (hg : g ∈ validateList now l) :
    jsOr (getF (normalizeTodo now (normalizeTodo now g)) "completedAt")
         (getF (normalizeTodo now (normalizeTodo now g)) "createdAt")
      = jsOr (getF g "completedAt") (getF g "createdAt") := by
  have hcr : truthy (getF g "createdAt") = true :=
    createdAt_truthy now hnow l g hg
  rw [getF_norm_completedAt, getF_norm_completedAt, jsOr_jsOr,
    getF_norm_createdAt, getF_norm_createdAt, jsOr_jsOr]
  by_cases hca : truthy (getF g "completedAt") = true
  · simp [jsOr, hca]
  · have hnull : truthy JsVal.null = false := rfl
    simp [jsOr, hca, hnull, hcr]

lemma all_of_length_filter_eq {α : Type} (p : α → Bool) (l : List α)
    (h : (l.filter p).length = l.length) : ∀ a ∈ l, p a = true := by
  induction l with
  | nil => intro a ha; cases ha
  | cons x t ih =>
    intro a ha
    by_cases hx : p x = true
    · rw [List.filter_cons, if_pos hx] at h
      simp only [List.length_cons, Nat.succ.injEq] at h
      rcases List.mem_cons.mp ha with rfl | hmem
      · exact hx
      · exact ih h a hmem
    · rw [List.filter_cons, if_neg hx] at h
      exact absurd h
        (Nat.ne_of_lt (Nat.lt_succ_of_le (List.length_filter_le p t)))

/-- After `handleQuotaExceeded` runs on a state whose next durable write
succeeds, no completed todo older than the 30-day cutoff remains
observable. -/
lemma handleQuotaF_removes (env : Env) (now : String) (nowMs : Int)
    (dateMs : JsVal → Int) (fuel : Nat) (s : St)
    (hm : s.usingMem = false)
    (hw : env s.writeCount = false)
    (hnow : now ≠ "") :
    ∀ f ∈ getTodos now (handleQuotaF env now nowMs dateMs (fuel + 1) s),
      truthy (getF f "completed") = true →
        nowMs - 30 * 24 * 60 * 60 * 1000
          < dateMs (jsOr (getF f "completedAt") (getF f "createdAt")) := by
  intro f hf hcomp
  unfold handleQuotaF at hf
  dsimp only at hf
  split at hf
  · rw [saveTodosF_durable env now nowMs dateMs fuel _ s hm hw] at hf
    have hf' : f ∈ validateList now
        ((validateList now
          (((getTodos now s).filter (keepB nowMs dateMs)).map .obj)).map .obj) := by
      simpa [getTodos, rawList, hm] using hf
    obtain ⟨g2, hg2, hv2, rfl⟩ := (mem_validateList_map now _ _).mp hf'
    obtain ⟨g1, hg1, hv1, rfl⟩ := (mem_validateList_map now _ _).mp hg2
    have hkeep : keepB nowMs dateMs g1 = true := List.of_mem_filter hg1
    have hg1mem : g1 ∈ validateList now (rawList s) := List.mem_of_mem_filter hg1
    have hc1 : truthy (getF g1 "completed") = true := hcomp
    rw [dateArg_norm_norm now hnow (rawList s) g1 hg1mem]
    exact keepB_spec nowMs dateMs g1 hkeep hc1
  · rename_i hlen
    have hle : ((getTodos now s).filter (keepB nowMs dateMs)).length
        = (getTodos now s).length :=
      Nat.le_antisymm (List.length_filter_le _ _) (Nat.le_of_not_lt hlen)
    have hkeep : keepB nowMs dateMs f = true :=
      all_of_length_filter_eq _ _ hle f hf
    exact keepB_spec nowMs dateMs f hkeep hcomp

/-- Neither `saveTodos` nor the quota recovery ever touches the
memory-fallback flag: `useMemoryFallback` is only reachable from the
storage-availability probe, not from this code path. -/
lemma saveTodosF_usingMem (env : Env) (now : String) (nowMs : Int)
    (dateMs : JsVal → Int) :
    ∀ (fuel : Nat) (todos : List Obj) (s : St),
      ((saveTodosF env now nowMs dateMs fuel todos s).2).usingMem
        = s.usingMem := by
  intro fuel
  induction fuel with
  | zero => intro todos s; rfl
  | succ n ih =>
    intro todos s
    by_cases hm : s.usingMem = true
    · rw [saveTodosF_mem env now nowMs dateMs n todos s hm]
    · by_cases hw : env s.writeCount = true
      · rw [saveTodosF_quota env now nowMs dateMs n todos s
          (by simpa using hm) hw]
        unfold handleQuotaF
        dsimp only
        split
        · rw [ih]
        · rfl
      · rw [saveTodosF_durable env now nowMs dateMs n todos s
          (by simpa using hm) (by simpa using hw)]

/-! ### Claims -/

/-- C1 (amended): for every raw input, `validateTodos` is total (never
throws) and every member of the returned list has the Todo shape: exactly
the nine fields `id`, `title`, `completed`, `dueDate`, `createdAt`,
`completedAt`, `priority`, `tags`, `description`, with a non-empty string
`id`, a string `title` (possibly empty after trimming), a boolean
`completed` and an array `tags`. -/
theorem C1_validate_invariant (now : String) (v : JsVal) :
    (validateTodos now v).all todoInvB = true := by
  cases v with
  | arr l => exact validateList_all_inv now l
  | _ => rfl

/-- C1 counterexample: an entry whose raw title is whitespace-only passes
the required-field check, and the member the validator returns has an
empty title — the claim's "non-empty title" part is false. -/
theorem C1_counterexample :
    (validateTodos "2024-06-01T00:00:00.000Z"
        (.arr [.obj [("id", .str "a"), ("title", .str "   "),
                     ("completed", .bool false)]])).all titleOkB = false
    ∧ (validateTodos "2024-06-01T00:00:00.000Z"
        (.arr [.obj [("id", .str "a"), ("title", .str "   "),
                     ("completed", .bool false)]])).length = 1 := by
  exact ⟨rfl, rfl⟩

/-- C10 (confirmed): a successful `saveTodos` persists exactly the
validated list: every written record has exactly the nine Todo fields (any
other key on an input record is stripped), and an input record failing the
required-field checks makes the written list strictly shorter (it is
dropped at write time). -/
theorem C10_saveTodos_validates (env : Env) (now : String) (nowMs : Int)
    (dateMs : JsVal → Int) (fuel : Nat) (todos : List Obj) (s s' : St)
    (h : saveTodosF env now nowMs dateMs (fuel + 1) todos s = (true, s')) :
    writtenTodos s' = validateList now (todos.map .obj)
    ∧ (validateList now (todos.map .obj)).all
        (fun f => f.map Prod.fst == nineKeys) = true
    ∧ ∀ g ∈ todos, isValidTodoF g = false →
        (writtenTodos s').length < todos.length := by
  have hkeys : (validateList now (todos.map .obj)).all
      (fun f => f.map Prod.fst == nineKeys) = true := by
    have hall := validateList_all_inv now (todos.map .obj)
    rw [List.all_eq_true] at hall ⊢
    intro f hf
    have := hall f hf
    unfold todoInvB at this
    simp only [Bool.and_eq_true] at this
    exact this.1.1.1.1
  have hwritten : writtenTodos s' = validateList now (todos.map .obj) := by
    simp only [saveTodosF] at h
    split at h
    · rw [Prod.mk.injEq] at h
      have hs' := h.2
      subst hs'
      simp only [writtenTodos]
      split
      · rfl
      · rename_i hmemf
        simp_all
    · split at h
      · simp at h
      · rw [Prod.mk.injEq] at h
        have hs' := h.2
        subst hs'
        simp only [writtenTodos]
        split
        · simp_all
        · simp [objsOf_map]
  refine ⟨hwritten, hkeys, ?_⟩
  intro g hg hbad
  rw [hwritten, validateList_map_obj]
  exact length_filterMap_lt_of_bad _ todos g hg (by simp [hbad])

/-- C10 witness: a concrete successful save containing one valid record
with an extra key and one invalid record. -/
theorem C10_saveTodos_validates_witness :
    writtenTodos (saveTodosF (fun _ => false) "2024-06-01T00:00:00.000Z" 0
        (fun _ => 0) 1
        [[("id", .str "a"), ("title", .str "t"), ("completed", .bool false),
          ("extraKey", .str "junk")],
         [("title", .str "no id")]] {} ).2
      = validateList "2024-06-01T00:00:00.000Z"
          ([[("id", .str "a"), ("title", .str "t"), ("completed", .bool false),
             ("extraKey", .str "junk")],
            [("title", .str "no id")]].map .obj)
    ∧ (validateList "2024-06-01T00:00:00.000Z"
          ([[("id", .str "a"), ("title", .str "t"), ("completed", .bool false),
             ("extraKey", .str "junk")],
            [("title", .str "no id")]].map .obj)).all
        (fun f => f.map Prod.fst == nineKeys) = true
    ∧ ∀ g ∈ [[("id", .str "a"), ("title", .str "t"), ("completed", .bool false),
              ("extraKey", .str "junk")],
             [("title", .str "no id")]], isValidTodoF g = false →
        (writtenTodos (saveTodosF (fun _ => false) "2024-06-01T00:00:00.000Z" 0
            (fun _ => 0) 1
            [[("id", .str "a"), ("title", .str "t"), ("completed", .bool false),
              ("extraKey", .str "junk")],
             [("title", .str "no id")]] {} ).2).length
          < ([[("id", .str "a"), ("title", .str "t"), ("completed", .bool false),
               ("extraKey", .str "junk")],
              [("title", .str "no id")]] : List Obj).length :=
  C10_saveTodos_validates (fun _ => false) "2024-06-01T00:00:00.000Z" 0
    (fun _ => 0) 0 _ {} _ rfl

/-- C2 counterexample: `addTodo` has no empty-title rejection. On a
whitespace-only title it returns the constructed record — not `null` —
while the record is silently dropped by write-time validation (the stored
list stays empty). The claim's "returns null" part is false. -/
theorem C2_counterexample :
    (addTodo (fun _ => false) "2024-06-01T00:00:00.000Z" 0 (fun _ => 0) "id-1" 3
        [("title", .str "   ")] { stored := some (.arr []) }).1
      = some [("id", .str "id-1"), ("title", .str ""), ("completed", .bool false),
              ("dueDate", .null), ("createdAt", .str "2024-06-01T00:00:00.000Z"),
              ("completedAt", .null), ("priority", .str "normal"),
              ("tags", .arr []), ("description", .str "")]
    ∧ ((addTodo (fun _ => false) "2024-06-01T00:00:00.000Z" 0 (fun _ => 0) "id-1" 3
        [("title", .str "   ")] { stored := some (.arr []) }).2).stored
      = some (.arr []) :=
  ⟨rfl, rfl⟩

/-- C2 (amended): on a string title that is empty after trimming,
`addTodo` throws no exception and the observable todo list is unchanged
(the constructed record fails write-time validation and is dropped), but
the operation is not signalled as rejected: `addTodo` returns the
constructed — never persisted — record instead of `null`. The stability
hypothesis says the current observable list survives re-validation, which
holds for every list the store itself has written unless a stored title is
itself whitespace-only. -/
theorem C2_addTodo_empty_title (env : Env) (now : String) (nowMs : Int)
    (dateMs : JsVal → Int) (genId : String) (fuel : Nat) (data : Obj) (s : St)
    (t : String)
    (ht : getF data "title" = .str t)
    (htr : jsTrim t = "")
    (hstable : validateList now ((getTodos now s).map .obj) = getTodos now s)
    (hw : env s.writeCount = false) :
    (addTodo env now nowMs dateMs genId (fuel + 1) data s).1 ≠ none
    ∧ getTodos now (addTodo env now nowMs dateMs genId (fuel + 1) data s).2
        = getTodos now s := by
  have hbad : isValidTodoF (mkNewTodo now genId data t) = false := by
    unfold isValidTodoF titleOkB
    rw [show getF (mkNewTodo now genId data t) "title" = .str (jsTrim t) from rfl,
      htr]
    simp
  have hdrop : validateList now
      ((mkNewTodo now genId data t :: getTodos now s).map .obj)
      = getTodos now s := by
    rw [List.map_cons, validateList_cons]
    simp only [validateOne, hbad]
    simpa using hstable
  have hsucc := saveTodosF_success env now nowMs dateMs fuel
    (mkNewTodo now genId data t :: getTodos now s) s hw
  rw [hdrop, hstable] at hsucc
  simp only [addTodo, ht, hsucc.1, if_true]
  exact ⟨by simp, hsucc.2⟩

/-- C2 witness: empty store, title `"   "`. -/
theorem C2_addTodo_empty_title_witness :
    (addTodo (fun _ => false) "2024-01-01T00:00:00.000Z" 0 (fun _ => 0) "id-2" 1
        [("title", .str "   ")] ({} : St)).1 ≠ none
    ∧ getTodos "2024-01-01T00:00:00.000Z"
        (addTodo (fun _ => false) "2024-01-01T00:00:00.000Z" 0 (fun _ => 0) "id-2" 1
          [("title", .str "   ")] ({} : St)).2
      = getTodos "2024-01-01T00:00:00.000Z" ({} : St) :=
  C2_addTodo_empty_title (fun _ => false) "2024-01-01T00:00:00.000Z" 0 (fun _ => 0)
    "id-2" 0 [("title", .str "   ")] {} "   " rfl rfl rfl rfl

/-- C4 (confirmed): when the partial update explicitly carries a boolean
`completed` flag, the record `updateTodo` produces derives `completedAt`
solely from that flag — `now` when true, `null` when false — regardless of
any `completedAt` value in the partial. -/
theorem C4_completedAt_from_flag (env : Env) (now : String) (nowMs : Int)
    (dateMs : JsVal → Int) (fuel : Nat) (id : String) (updates : Obj) (s : St)
    (b : Bool) (r : Obj)
    (hc : getF updates "completed" = .bool b)
    (hr : (updateTodo env now nowMs dateMs fuel id updates s).1 = some r) :
    getF r "completedAt" = if b then .str now else .null := by
  obtain ⟨i, hfi, hrm⟩ :=
    updateTodo_some env now nowMs dateMs fuel id updates s r hr
  subst hrm
  unfold mergeUpdate
  rw [applyCompleted_bool now updates _ b hc, getF_setKey_self]

/-- C4 witness: updating with `{completed: true, completedAt: "JUNK"}`
yields `completedAt = now`, ignoring the junk value. -/
theorem C4_completedAt_from_flag_witness :
    getF [("id", .str "a"), ("title", .str "t"), ("completed", .bool true),
          ("dueDate", .null), ("createdAt", .str "2024-01-01T00:00:00.000Z"),
          ("completedAt", .str "2024-06-02T00:00:00.000Z"),
          ("priority", .str "normal"), ("tags", .arr []),
          ("description", .str ""),
          ("updatedAt", .str "2024-06-02T00:00:00.000Z")] "completedAt"
      = .str "2024-06-02T00:00:00.000Z" :=
  C4_completedAt_from_flag (fun _ => false) "2024-06-02T00:00:00.000Z" 0
    (fun _ => 0) 3 "a" [("completed", .bool true), ("completedAt", .str "JUNK")]
    { stored := some (.arr [.obj [("id", .str "a"), ("title", .str "t"),
        ("completed", .bool false),
        ("createdAt", .str "2024-01-01T00:00:00.000Z")]]) }
    true _ rfl rfl

/-- C5 counterexample: only `id` is protected by the merge; a partial
carrying a `createdAt` key overwrites the stored record's `createdAt`,
which the subsequent save persists. Before the update the stored record's
`createdAt` is the 2024 timestamp, the update succeeds, and afterwards the
persisted record carries the 1999 timestamp from the partial. -/
theorem C5_counterexample :
    (getTodo "2024-06-02T00:00:00.000Z" "a"
        { stored := some (.arr [.obj [("id", .str "a"), ("title", .str "t"),
            ("completed", .bool false),
            ("createdAt", .str "2024-01-01T00:00:00.000Z")]]) }).map
      (fun f => getF f "createdAt") = some (.str "2024-01-01T00:00:00.000Z")
    ∧ ((updateTodo (fun _ => false) "2024-06-02T00:00:00.000Z" 0 (fun _ => 0) 3
        "a" [("createdAt", .str "1999-01-01T00:00:00.000Z")]
        { stored := some (.arr [.obj [("id", .str "a"), ("title", .str "t"),
            ("completed", .bool false),
            ("createdAt", .str "2024-01-01T00:00:00.000Z")]]) }).1).isSome = true
    ∧ (getTodo "2024-06-02T00:00:00.000Z" "a"
        (updateTodo (fun _ => false) "2024-06-02T00:00:00.000Z" 0 (fun _ => 0) 3
          "a" [("createdAt", .str "1999-01-01T00:00:00.000Z")]
          { stored := some (.arr [.obj [("id", .str "a"), ("title", .str "t"),
              ("completed", .bool false),
              ("createdAt", .str "2024-01-01T00:00:00.000Z")]]) }).2).map
      (fun f => getF f "createdAt") = some (.str "1999-01-01T00:00:00.000Z") :=
  ⟨rfl, rfl, rfl⟩

/-- C5 (amended): a successful `updateTodo` never changes `id` (the merge
re-asserts it after spreading the partial, so even a partial carrying an
`id` key cannot override it), and it leaves `createdAt` unchanged provided
the partial carries no `createdAt` key; both hold for the returned record
and for its persisted normalization. -/
theorem C5_update_keeps_id_createdAt (env : Env) (now : String) (nowMs : Int)
    (dateMs : JsVal → Int) (fuel : Nat) (id : String) (updates : Obj) (s : St)
    (orig r : Obj)
    (hfind : getTodo now id s = some orig)
    (hnc : ∀ p ∈ updates, p.1 ≠ "createdAt")
    (hnow : now ≠ "")
    (hr : (updateTodo env now nowMs dateMs fuel id updates s).1 = some r) :
    getF r "id" = .str id
    ∧ getF r "createdAt" = getF orig "createdAt"
    ∧ getF (normalizeTodo now r) "id" = .str id
    ∧ getF (normalizeTodo now r) "createdAt" = getF orig "createdAt" := by
  obtain ⟨i, hfi, hrm⟩ :=
    updateTodo_some env now nowMs dateMs fuel id updates s r hr
  obtain ⟨hlt, hfindeq⟩ := find?_getD_of_findIdx? _ _ _ hfi
  have horig : orig = (getTodos now s).getD i [] := by
    rw [getTodo, hfindeq] at hfind
    exact (Option.some_inj.mp hfind).symm
  have hcr : getF r "createdAt" = getF orig "createdAt" := by
    rw [hrm, horig]
    exact getF_mergeUpdate_createdAt now id _ updates hnc
  have hid : getF r "id" = .str id := by
    rw [hrm]
    exact getF_mergeUpdate_id now id _ updates
  refine ⟨hid, hcr, by rw [getF_norm_id]; exact hid, ?_⟩
  rw [getF_norm_createdAt, hcr]
  have hmem : orig ∈ getTodos now s := by
    rw [horig, List.getD_eq_getElem?_getD, List.getElem?_eq_getElem hlt]
    simp [List.getElem_mem hlt]
  have htr : truthy (getF orig "createdAt") = true :=
    createdAt_truthy now hnow (rawList s) orig hmem
  unfold jsOr
  rw [htr]
  simp

/-- C5 witness: an update that changes only the title keeps `id` and
`createdAt`. -/
theorem C5_update_keeps_id_createdAt_witness :
    getF [("id", .str "a"), ("title", .str "new"), ("completed", .bool false),
          ("dueDate", .null), ("createdAt", .str "2024-01-01T00:00:00.000Z"),
          ("completedAt", .null), ("priority", .str "normal"), ("tags", .arr []),
          ("description", .str ""),
          ("updatedAt", .str "2024-06-02T00:00:00.000Z")] "id" = .str "a"
    ∧ getF [("id", .str "a"), ("title", .str "new"), ("completed", .bool false),
          ("dueDate", .null), ("createdAt", .str "2024-01-01T00:00:00.000Z"),
          ("completedAt", .null), ("priority", .str "normal"), ("tags", .arr []),
          ("description", .str ""),
          ("updatedAt", .str "2024-06-02T00:00:00.000Z")] "createdAt"
      = getF [("id", .str "a"), ("title", .str "t"), ("completed", .bool false),
          ("dueDate", .null), ("createdAt", .str "2024-01-01T00:00:00.000Z"),
          ("completedAt", .null), ("priority", .str "normal"), ("tags", .arr []),
          ("description", .str "")] "createdAt"
    ∧ getF (normalizeTodo "2024-06-02T00:00:00.000Z"
          [("id", .str "a"), ("title", .str "new"), ("completed", .bool false),
           ("dueDate", .null), ("createdAt", .str "2024-01-01T00:00:00.000Z"),
           ("completedAt", .null), ("priority", .str "normal"), ("tags", .arr []),
           ("description", .str ""),
           ("updatedAt", .str "2024-06-02T00:00:00.000Z")]) "id" = .str "a"
    ∧ getF (normalizeTodo "2024-06-02T00:00:00.000Z"
          [("id", .str "a"), ("title", .str "new"), ("completed", .bool false),
           ("dueDate", .null), ("createdAt", .str "2024-01-01T00:00:00.000Z"),
           ("completedAt", .null), ("priority", .str "normal"), ("tags", .arr []),
           ("description", .str ""),
           ("updatedAt", .str "2024-06-02T00:00:00.000Z")]) "createdAt"
      = getF [("id", .str "a"), ("title", .str "t"), ("completed", .bool false),
          ("dueDate", .null), ("createdAt", .str "2024-01-01T00:00:00.000Z"),
          ("completedAt", .null), ("priority", .str "normal"), ("tags", .arr []),
          ("description", .str "")] "createdAt" :=
  C5_update_keeps_id_createdAt (fun _ => false) "2024-06-02T00:00:00.000Z" 0
    (fun _ => 0) 3 "a" [("title", .str "new")]
    { stored := some (.arr [.obj [("id", .str "a"), ("title", .str "t"),
        ("completed", .bool false),
        ("createdAt", .str "2024-01-01T00:00:00.000Z")]]) }
    _ _ rfl (by decide) (by decide) rfl

/-- C6 (code bug): `updateTodo` does set `updatedAt` on the record it
returns, but `saveTodos` re-validates at write time and the validator's
nine-field whitelist strips `updatedAt`; the persisted record observed by
a subsequent `getTodo` has exactly the nine fields and no `updatedAt`.
The claim's "persisted record has updatedAt set" is false on the code. -/
theorem C6_updatedAt_not_persisted :
    ((updateTodo (fun _ => false) "2024-06-02T00:00:00.000Z" 0 (fun _ => 0) 3
        "a" [("title", .str "new")]
        { stored := some (.arr [.obj [("id", .str "a"), ("title", .str "t"),
            ("completed", .bool false),
            ("createdAt", .str "2024-01-01T00:00:00.000Z")]]) }).1).map
      (fun f => getF f "updatedAt") = some (.str "2024-06-02T00:00:00.000Z")
    ∧ (getTodo "2024-06-02T00:00:00.000Z" "a"
        (updateTodo (fun _ => false) "2024-06-02T00:00:00.000Z" 0 (fun _ => 0) 3
          "a" [("title", .str "new")]
          { stored := some (.arr [.obj [("id", .str "a"), ("title", .str "t"),
              ("completed", .bool false),
              ("createdAt", .str "2024-01-01T00:00:00.000Z")]]) }).2).map
      (fun f => getF f "updatedAt") = some .undef
    ∧ (getTodo "2024-06-02T00:00:00.000Z" "a"
        (updateTodo (fun _ => false) "2024-06-02T00:00:00.000Z" 0 (fun _ => 0) 3
          "a" [("title", .str "new")]
          { stored := some (.arr [.obj [("id", .str "a"), ("title", .str "t"),
              ("completed", .bool false),
              ("createdAt", .str "2024-01-01T00:00:00.000Z")]]) }).2).map
      (fun f => f.map Prod.fst) = some nineKeys :=
  ⟨rfl, rfl, rfl⟩

/-- C3 (code bug): initialization with settings version `"0.9.0"` and a
stored legacy record lacking `id`, `createdAt` and boolean `completed`.
Because `performMigrations` reloads the todos through `getTodos`, the
validator drops the legacy record (no `id`) before the backfill loop can
see it: no field is backfilled, `saveTodos` is never invoked
(`saveCalls = 0`), the raw stored record is left untouched, and the record
is invisible to every read. The claim's "backfills all three fields and
persists exactly once" is false on the code. -/
theorem C3_migration_never_persists :
    (initStorage true (fun _ => false) "2024-06-01T00:00:00.000Z" 0 (fun _ => 0)
        "gen-id" 9
        { stored := some (.arr [.obj [("title", .str "legacy task")]]),
          settingsStored := some (.obj [("version", .str "0.9.0")]) }).saveCalls = 0
    ∧ (initStorage true (fun _ => false) "2024-06-01T00:00:00.000Z" 0 (fun _ => 0)
        "gen-id" 9
        { stored := some (.arr [.obj [("title", .str "legacy task")]]),
          settingsStored := some (.obj [("version", .str "0.9.0")]) }).stored
      = some (.arr [.obj [("title", .str "legacy task")]])
    ∧ getTodos "2024-06-01T00:00:00.000Z"
        (initStorage true (fun _ => false) "2024-06-01T00:00:00.000Z" 0 (fun _ => 0)
          "gen-id" 9
          { stored := some (.arr [.obj [("title", .str "legacy task")]]),
            settingsStored := some (.obj [("version", .str "0.9.0")]) })
      = [] :=
  ⟨rfl, rfl, rfl⟩

/-- C7 (confirmed): when the durable write of an `addTodo` throws
quota-exceeded and the recovery's own write succeeds, the quota-recovery
procedure runs before the outcome (`null`) is reported: afterwards the
observable stored list holds no completed todo whose
`completedAt || createdAt` parses to an instant at or before the 30-day
cutoff — in particular every completed todo more than 30 days old has been
removed and the reduced set persisted. -/
theorem C7_quota_recovery (env : Env) (now : String) (nowMs : Int)
    (dateMs : JsVal → Int) (genId : String) (fuel : Nat) (data : Obj) (s : St)
    (t : String)
    (ht : getF data "title" = .str t)
    (hm : s.usingMem = false)
    (hq : env s.writeCount = true)
    (hw2 : env (s.writeCount + 1) = false)
    (hnow : now ≠ "") :
    (addTodo env now nowMs dateMs genId (fuel + 2) data s).1 = none
    ∧ ∀ f ∈ getTodos now
        (addTodo env now nowMs dateMs genId (fuel + 2) data s).2,
        truthy (getF f "completed") = true →
          nowMs - 30 * 24 * 60 * 60 * 1000
            < dateMs (jsOr (getF f "completedAt") (getF f "createdAt")) := by
  have hfe : fuel + 2 = (fuel + 1) + 1 := rfl
  have hsave := saveTodosF_quota env now nowMs dateMs (fuel + 1)
    (mkNewTodo now genId data t :: getTodos now s) s hm hq
  have h1 : addTodo env now nowMs dateMs genId (fuel + 2) data s
      = (none, handleQuotaF env now nowMs dateMs (fuel + 1)
          { s with saveCalls := s.saveCalls + 1,
                   writeCount := s.writeCount + 1 }) := by
    unfold addTodo
    rw [ht]
    dsimp only
    rw [hfe, hsave]
    simp
  rw [h1]
  exact ⟨rfl, handleQuotaF_removes env now nowMs dateMs fuel
    { s with saveCalls := s.saveCalls + 1, writeCount := s.writeCount + 1 }
    hm hw2 hnow⟩

/-- C7 witness: the first write hits quota, the recovery write succeeds; a
todo completed far before the cutoff is purged before `addTodo` returns. -/
theorem C7_quota_recovery_witness :
    (addTodo (fun n => n == 0) "2024-06-01T00:00:00.000Z" 1717200000000
        (fun v => match v with | .str "2020-01-01" => 0 | _ => 1717200000000)
        "id-7" 5 [("title", .str "x")]
        { stored := some (.arr [
            .obj [("id", .str "old"), ("title", .str "done long ago"),
                  ("completed", .bool true), ("completedAt", .str "2020-01-01"),
                  ("createdAt", .str "2020-01-01")],
            .obj [("id", .str "new"), ("title", .str "fresh"),
                  ("completed", .bool false),
                  ("createdAt", .str "2024-01-01")]]) }).1 = none
    ∧ ∀ f ∈ getTodos "2024-06-01T00:00:00.000Z"
        (addTodo (fun n => n == 0) "2024-06-01T00:00:00.000Z" 1717200000000
          (fun v => match v with | .str "2020-01-01" => 0 | _ => 1717200000000)
          "id-7" 5 [("title", .str "x")]
          { stored := some (.arr [
              .obj [("id", .str "old"), ("title", .str "done long ago"),
                    ("completed", .bool true), ("completedAt", .str "2020-01-01"),
                    ("createdAt", .str "2020-01-01")],
              .obj [("id", .str "new"), ("title", .str "fresh"),
                    ("completed", .bool false),
                    ("createdAt", .str "2024-01-01")]]) }).2,
        truthy (getF f "completed") = true →
          (1717200000000 : Int) - 30 * 24 * 60 * 60 * 1000
            < (fun v => match v with
                | .str "2020-01-01" => 0
                | _ => (1717200000000 : Int))
              (jsOr (getF f "completedAt") (getF f "createdAt")) :=
  C7_quota_recovery (fun n => n == 0) "2024-06-01T00:00:00.000Z" 1717200000000
    (fun v => match v with | .str "2020-01-01" => 0 | _ => 1717200000000)
    "id-7" 3 [("title", .str "x")]
    { stored := some (.arr [
        .obj [("id", .str "old"), ("title", .str "done long ago"),
              ("completed", .bool true), ("completedAt", .str "2020-01-01"),
              ("createdAt", .str "2020-01-01")],
        .obj [("id", .str "new"), ("title", .str "fresh"),
              ("completed", .bool false),
              ("createdAt", .str "2024-01-01")]]) }
    "x" rfl rfl rfl rfl (by decide)

/-- C8 (code bug): the quota-recovery procedure never switches the store
to the memory fallback — for every environment, including one where every
write (the recovery's own persistence included) keeps failing with
quota-exceeded, `handleQuotaExceeded` leaves the fallback flag untouched.
In the source, `saveTodos` catches its own exceptions and returns `false`
instead of throwing, so the `catch` in `handleQuotaExceeded` that calls
`useMemoryFallback` is unreachable; the claimed permanent switch never
happens. -/
theorem C8_no_memory_fallback (env : Env) (now : String) (nowMs : Int)
    (dateMs : JsVal → Int) (fuel : Nat) (s : St) :
    (handleQuotaF env now nowMs dateMs fuel s).usingMem = s.usingMem := by
  unfold handleQuotaF
  dsimp only
  split
  · rw [saveTodosF_usingMem]
  · rfl

/-- C9 counterexample: on a whitespace-only title `addTodo` succeeds by
the claim's own criterion (it returns a non-null record), but the record
is dropped by write-time validation, and the immediately following
`getTodo` with the returned id yields `null`, not an equal record. -/
theorem C9_counterexample :
    (addTodo (fun _ => false) "2024-03-01T00:00:00.000Z" 0 (fun _ => 0) "id-9" 3
        [("title", .str "   ")] { stored := some (.arr []) }).1
      = some [("id", .str "id-9"), ("title", .str ""),
              ("completed", .bool false), ("dueDate", .null),
              ("createdAt", .str "2024-03-01T00:00:00.000Z"),
              ("completedAt", .null), ("priority", .str "normal"),
              ("tags", .arr []), ("description", .str "")]
    ∧ getTodo "2024-03-01T00:00:00.000Z" "id-9"
        (addTodo (fun _ => false) "2024-03-01T00:00:00.000Z" 0 (fun _ => 0) "id-9"
          3 [("title", .str "   ")] { stored := some (.arr []) }).2
      = none :=
  ⟨rfl, rfl⟩

/-- C9 (amended): when the title is a string that is non-empty after
trimming, the raw `tags` is an array or absent/falsy, and the id generator
and clock produce non-empty strings, a successful `addTodo` followed
immediately by `getTodo` with the returned id yields a record equal to the
one `addTodo` returned. -/
theorem C9_add_then_get (env : Env) (now : String) (nowMs : Int)
    (dateMs : JsVal → Int) (genId : String) (fuel : Nat) (data : Obj) (s : St)
    (t : String)
    (ht : getF data "title" = .str t)
    (htr : jsTrim t ≠ "")
    (hg : genId ≠ "")
    (htags : truthy (getF data "tags") = false
      ∨ isArr (getF data "tags") = true)
    (hw : env s.writeCount = false) :
    ∃ r, (addTodo env now nowMs dateMs genId (fuel + 1) data s).1 = some r
      ∧ getTodo now genId
          (addTodo env now nowMs dateMs genId (fuel + 1) data s).2
        = some r := by
  have hvalid : isValidTodoF (mkNewTodo now genId data t) = true := by
    rw [show isValidTodoF (mkNewTodo now genId data t)
      = ((genId != "") && (jsTrim t != "") && true) from rfl]
    simp [hg, htr]
  have hnorm := normalizeTodo_mkNewTodo now genId data t htags
  have hsucc := saveTodosF_success env now nowMs dateMs fuel
    (mkNewTodo now genId data t :: getTodos now s) s hw
  have h1 : addTodo env now nowMs dateMs genId (fuel + 1) data s
      = (some (mkNewTodo now genId data t),
         (saveTodosF env now nowMs dateMs (fuel + 1)
           (mkNewTodo now genId data t :: getTodos now s) s).2) := by
    unfold addTodo
    rw [ht]
    dsimp only
    rw [hsucc.1]
    simp
  refine ⟨mkNewTodo now genId data t, by rw [h1], ?_⟩
  rw [h1]
  unfold getTodo
  rw [hsucc.2, validateList_cons_valid now _ _ hvalid hnorm,
    validateList_cons_valid now _ _ hvalid hnorm, List.find?_cons_of_pos]
  unfold idEq
  rw [show getF (mkNewTodo now genId data t) "id" = .str genId from rfl]
  simp

/-- C9 witness: adding `"  Team meeting "` with tags `["x"]` to an empty
store and reading it back by the returned id. -/
theorem C9_add_then_get_witness :
    ∃ r, (addTodo (fun _ => false) "2024-01-01T00:00:00.000Z" 0 (fun _ => 0)
        "id-10" 1 [("title", .str "  Team meeting "), ("tags", .arr [.str "x"])]
        ({} : St)).1 = some r
      ∧ getTodo "2024-01-01T00:00:00.000Z" "id-10"
          (addTodo (fun _ => false) "2024-01-01T00:00:00.000Z" 0 (fun _ => 0)
            "id-10" 1
            [("title", .str "  Team meeting "), ("tags", .arr [.str "x"])]
            ({} : St)).2
        = some r :=
  C9_add_then_get (fun _ => false) "2024-01-01T00:00:00.000Z" 0 (fun _ => 0)
    "id-10" 0 [("title", .str "  Team meeting "), ("tags", .arr [.str "x"])]
    {} "  Team meeting " rfl (by decide) (by decide) (Or.inr rfl) rfl

end TodoPWA
